import Mathlib

/-!
Verification development for the Poe API pipeline
(`src/pipelines/poe_api_pipeline.py`).

The pipeline is a thin HTTP adapter: it classifies caller-supplied
parameters into an outbound JSON request body (`_build_request_body`),
performs the outbound POST with bounded retries (`_make_request`),
normalizes streaming SSE responses (`_stream_response`) or buffered
responses (`_parse_response`), and refreshes a model catalog
(`_refresh_models`).

JSON values are embedded as the inductive `Value`; Python dicts are
embedded as association lists with unique keys (`Dict`), where
`dset` models `d[k] = v` (replace the binding in place when the key is
present, append otherwise) and `dget` models `d.get(k)`.  Network I/O
is abstracted as a transport function from attempt number to the
outcome of one `requests.post` call.
-/

/-- A JSON number that `json.loads` parses as a Python float: an exact
scaled decimal m × 10^e, or one of the constants NaN / Infinity /
-Infinity that `json.loads` accepts.  The pipeline observes a float only
through truthiness (`bool(0.0)` is false, NaN and the infinities are
truthy) and through not being a dict/list/str, so the conversion to IEEE
binary — including underflow of tiny decimals to 0.0 — is not modeled. -/
inductive FloatLit where
  | finite : Int → Int → FloatLit
  | nan : FloatLit
  | inf : Bool → FloatLit

/-- JSON values, as produced by `json.loads` and carried in caller maps. -/
inductive Value where
  | null : Value
  | bool : Bool → Value
  | int : Int → Value
  | float : FloatLit → Value
  | str : String → Value
  | list : List Value → Value
  | obj : List (String × Value) → Value

/-- A Python dict with string keys, as an insertion-ordered association list. -/
abbrev Dict := List (String × Value)

/-- Dict lookup, `d.get(k)` / `d[k]` (first binding; real dicts have unique keys). -/
def dget (d : Dict) (k : String) : Option Value :=
  (d.find? (fun p => p.1 = k)).map (fun p => p.2)

/-- Dict lookup with default, `d.get(k, dflt)`. -/
def dgetD (d : Dict) (k : String) (dflt : Value) : Value :=
  (dget d k).getD dflt

/-- Dict membership, `k in d`. -/
def dcontains (d : Dict) (k : String) : Bool :=
  (dget d k).isSome

/-- Dict assignment `d[k] = v`: replace the binding in place when the key is
present (Python keeps the original insertion position), append otherwise. -/
def dset : Dict → String → Value → Dict
  | [], k, v => [(k, v)]
  | p :: rest, k, v => if p.1 = k then (k, v) :: rest else p :: dset rest k v

/-- Python truthiness of a JSON value (`if x:`). -/
def pyTruthy : Value → Bool
  | Value.null => false
  | Value.bool b => b
  | Value.int n => decide (n ≠ 0)
  | Value.float (FloatLit.finite m _) => decide (m ≠ 0)
  | Value.float FloatLit.nan => true
  | Value.float (FloatLit.inf _) => true
  | Value.str s => decide (s ≠ "")
  | Value.list xs => !xs.isEmpty
  | Value.obj kvs => !kvs.isEmpty

/-- Whether a value is the JSON null (`x is None`). -/
def Value.isNull : Value → Bool
  | Value.null => true
  | _ => false

mutual
/-- Python `repr()` of a JSON value, at the level of detail the pipeline can
observe (string escaping inside `repr` is elided and floats are rendered
as scaled decimals: only unclaimed logging paths inspect this). -/
def pyRepr : Value → String
  | Value.null => "None"
  | Value.bool true => "True"
  | Value.bool false => "False"
  | Value.int n => toString n
  | Value.float (FloatLit.finite m e) => toString m ++ "e" ++ toString e
  | Value.float FloatLit.nan => "nan"
  | Value.float (FloatLit.inf false) => "inf"
  | Value.float (FloatLit.inf true) => "-inf"
  | Value.str s => "\x27" ++ s ++ "\x27"
  | Value.list xs => "[" ++ pyReprList xs ++ "]"
  | Value.obj kvs => "\x7b" ++ pyReprObj kvs ++ "\x7d"

/-- Comma-separated `repr()`s of list elements. -/
def pyReprList : List Value → String
  | [] => ""
  | [x] => pyRepr x
  | x :: xs => pyRepr x ++ ", " ++ pyReprList xs

/-- Comma-separated `repr()`s of dict entries. -/
def pyReprObj : List (String × Value) → String
  | [] => ""
  | [(k, v)] => "\x27" ++ k ++ "\x27: " ++ pyRepr v
  | (k, v) :: kvs => "\x27" ++ k ++ "\x27: " ++ pyRepr v ++ ", " ++ pyReprObj kvs
end

/-- Python `str()` of a JSON value (differs from `repr` only on strings). -/
def pyStr : Value → String
  | Value.str s => s
  | v => pyRepr v

/-- Skip JSON whitespace (space, tab, newline, carriage return). -/
def skipWs : List Char → List Char
  | [] => []
  | c :: cs => if c = ' ' ∨ c = '\t' ∨ c = '\n' ∨ c = '\r' then skipWs cs else c :: cs

/-- Value of a hex digit, for `\u` string escapes. -/
def hexVal (c : Char) : Option Nat :=
  if '0' ≤ c ∧ c ≤ '9' then some (c.toNat - 48)
  else if 'a' ≤ c ∧ c ≤ 'f' then some (c.toNat - 87)
  else if 'A' ≤ c ∧ c ≤ 'F' then some (c.toNat - 55)
  else none

/-- Parse the body of a JSON string after the opening quote; returns the
decoded characters and the input remaining after the closing quote.
Raw control characters are rejected as `json.loads` (strict mode)
rejects them; `\u` surrogate pairs are combined; a lone surrogate,
which a Lean `String` cannot represent although Python keeps it,
becomes U+FFFD (observable only in the characters of such a fragment). -/
def parseStringChars : Nat → List Char → Option (List Char × List Char)
  | 0, _ => none
  | _ + 1, [] => none
  | _ + 1, '"' :: cs => some ([], cs)
  | fuel + 1, '\\' :: '"' :: cs => (parseStringChars fuel cs).map (fun p => ('"' :: p.1, p.2))
  | fuel + 1, '\\' :: '\\' :: cs => (parseStringChars fuel cs).map (fun p => ('\\' :: p.1, p.2))
  | fuel + 1, '\\' :: '/' :: cs => (parseStringChars fuel cs).map (fun p => ('/' :: p.1, p.2))
  | fuel + 1, '\\' :: 'n' :: cs => (parseStringChars fuel cs).map (fun p => ('\n' :: p.1, p.2))
  | fuel + 1, '\\' :: 't' :: cs => (parseStringChars fuel cs).map (fun p => ('\t' :: p.1, p.2))
  | fuel + 1, '\\' :: 'r' :: cs => (parseStringChars fuel cs).map (fun p => ('\r' :: p.1, p.2))
  | fuel + 1, '\\' :: 'b' :: cs => (parseStringChars fuel cs).map (fun p => ('\x08' :: p.1, p.2))
  | fuel + 1, '\\' :: 'f' :: cs => (parseStringChars fuel cs).map (fun p => ('\x0c' :: p.1, p.2))
  | fuel + 1, '\\' :: 'u' :: a :: b :: c :: d :: '\\' :: 'u' :: e :: f :: g :: h :: cs =>
    (match hexVal a, hexVal b, hexVal c, hexVal d with
     | some ha, some hb, some hc, some hd =>
       let code := ((ha * 16 + hb) * 16 + hc) * 16 + hd
       if 0xd800 ≤ code ∧ code ≤ 0xdbff then
         match hexVal e, hexVal f, hexVal g, hexVal h with
         | some he, some hf, some hg, some hh =>
           let code2 := ((he * 16 + hf) * 16 + hg) * 16 + hh
           if 0xdc00 ≤ code2 ∧ code2 ≤ 0xdfff then
             (parseStringChars fuel cs).map (fun p =>
               (Char.ofNat (0x10000 + (code - 0xd800) * 0x400 + (code2 - 0xdc00)) :: p.1,
                p.2))
           else
             (parseStringChars fuel ('\\' :: 'u' :: e :: f :: g :: h :: cs)).map
               (fun p => (Char.ofNat 0xfffd :: p.1, p.2))
         | _, _, _, _ => none
       else if 0xdc00 ≤ code ∧ code ≤ 0xdfff then
         (parseStringChars fuel ('\\' :: 'u' :: e :: f :: g :: h :: cs)).map
           (fun p => (Char.ofNat 0xfffd :: p.1, p.2))
       else
         (parseStringChars fuel ('\\' :: 'u' :: e :: f :: g :: h :: cs)).map
           (fun p => (Char.ofNat code :: p.1, p.2))
     | _, _, _, _ => none)
  | fuel + 1, '\\' :: 'u' :: a :: b :: c :: d :: cs =>
    (match hexVal a, hexVal b, hexVal c, hexVal d with
     | some ha, some hb, some hc, some hd =>
       let code := ((ha * 16 + hb) * 16 + hc) * 16 + hd
       if 0xd800 ≤ code ∧ code ≤ 0xdfff then
         (parseStringChars fuel cs).map (fun p => (Char.ofNat 0xfffd :: p.1, p.2))
       else
         (parseStringChars fuel cs).map (fun p => (Char.ofNat code :: p.1, p.2))
     | _, _, _, _ => none)
  | _ + 1, '\\' :: _ => none
  | fuel + 1, c :: cs =>
    if c.toNat < 32 then none
    else (parseStringChars fuel cs).map (fun p => (c :: p.1, p.2))

/-- Split a leading run of decimal digits from the input. -/
def takeDigits : List Char → List Char × List Char
  | [] => ([], [])
  | c :: cs =>
    if '0' ≤ c ∧ c ≤ '9' then
      let p := takeDigits cs
      (c :: p.1, p.2)
    else ([], c :: cs)

/-- Decimal digits to a natural number. -/
def digitsToNat (ds : List Char) : Nat :=
  ds.foldl (fun acc c => acc * 10 + (c.toNat - 48)) 0

/-- Parse the signed digit sequence of a JSON exponent part (leading
zeros are allowed there). -/
def parseExpDigits (cs : List Char) : Option (Int × List Char) :=
  let sp : Bool × List Char := match cs with
    | '+' :: rest => (false, rest)
    | '-' :: rest => (true, rest)
    | _ => (false, cs)
  match takeDigits sp.2 with
  | ([], _) => none
  | (ds, rest) =>
    let v : Int := Int.ofNat (digitsToNat ds)
    some (if sp.1 then -v else v, rest)

/-- Parse a JSON number literal: integer part (leading-zero forms are
rejected as `json.loads` rejects them), optional fraction and exponent.
A plain integer becomes a Python int; a fractional or exponent form
becomes a Python float, kept as the exact scaled decimal. -/
def parseNumberFrom (cs : List Char) : Option (Value × List Char) :=
  let sp : Bool × List Char := match cs with
    | '-' :: rest => (true, rest)
    | _ => (false, cs)
  match takeDigits sp.2 with
  | ([], _) => none
  | (ds, rest) =>
    if ds.length > 1 ∧ ds.headD '0' = '0' then none
    else
      let fr : Option (List Char × List Char) := match rest with
        | '.' :: rest2 =>
          (match takeDigits rest2 with
           | ([], _) => none
           | (fds, rest3) => some (fds, rest3))
        | _ => some ([], rest)
      match fr with
      | none => none
      | some (fds, rest3) =>
        let ex : Option (Option Int × List Char) := match rest3 with
          | 'e' :: rest4 => (parseExpDigits rest4).map (fun p => (some p.1, p.2))
          | 'E' :: rest4 => (parseExpDigits rest4).map (fun p => (some p.1, p.2))
          | _ => some (none, rest3)
        match ex with
        | none => none
        | some (eo, rest5) =>
          let sign : Int := if sp.1 then -1 else 1
          match fds, eo with
          | [], none => some (Value.int (sign * Int.ofNat (digitsToNat ds)), rest5)
          | _, _ =>
            some (Value.float (FloatLit.finite
              (sign * Int.ofNat (digitsToNat (ds ++ fds)))
              ((eo.getD 0) - Int.ofNat fds.length)), rest5)

/-- Python dict construction from parsed object members in order: a
repeated key keeps its first position and takes its last value, exactly
as `json.loads` resolves duplicate keys when building the dict. -/
def mkDict (kvs : List (String × Value)) : Dict :=
  kvs.foldl (fun d kv => dset d kv.1 kv.2) []

mutual
/-- Fuel-bounded recursive-descent parser for one JSON value, modeling
`json.loads`.  Returns the value and the unconsumed input. -/
def parseVal : Nat → List Char → Option (Value × List Char)
  | 0, _ => none
  | fuel + 1, cs =>
    match skipWs cs with
    | [] => none
    | '"' :: cs2 =>
      (parseStringChars (cs2.length + 1) cs2).map (fun p => (Value.str (String.mk p.1), p.2))
    | '\x7b' :: cs2 =>
      (match skipWs cs2 with
       | '\x7d' :: cs3 => some (Value.obj [], cs3)
       | cs3 => (parseMembers fuel cs3).map (fun p => (Value.obj (mkDict p.1), p.2)))
    | '[' :: cs2 =>
      (match skipWs cs2 with
       | ']' :: cs3 => some (Value.list [], cs3)
       | cs3 => (parseElems fuel cs3).map (fun p => (Value.list p.1, p.2)))
    | 't' :: 'r' :: 'u' :: 'e' :: cs2 => some (Value.bool true, cs2)
    | 'f' :: 'a' :: 'l' :: 's' :: 'e' :: cs2 => some (Value.bool false, cs2)
    | 'n' :: 'u' :: 'l' :: 'l' :: cs2 => some (Value.null, cs2)
    | 'N' :: 'a' :: 'N' :: cs2 => some (Value.float FloatLit.nan, cs2)
    | 'I' :: 'n' :: 'f' :: 'i' :: 'n' :: 'i' :: 't' :: 'y' :: cs2 =>
      some (Value.float (FloatLit.inf false), cs2)
    | '-' :: 'I' :: 'n' :: 'f' :: 'i' :: 'n' :: 'i' :: 't' :: 'y' :: cs2 =>
      some (Value.float (FloatLit.inf true), cs2)
    | c :: cs2 => parseNumberFrom (c :: cs2)

/-- Parse the elements of a non-empty JSON array up to the closing bracket. -/
def parseElems : Nat → List Char → Option (List Value × List Char)
  | 0, _ => none
  | fuel + 1, cs =>
    match parseVal fuel cs with
    | none => none
    | some (v, r) =>
      match skipWs r with
      | ',' :: r2 => (parseElems fuel r2).map (fun p => (v :: p.1, p.2))
      | ']' :: r2 => some ([v], r2)
      | _ => none

/-- Parse the members of a non-empty JSON object up to the closing brace. -/
def parseMembers : Nat → List Char → Option (List (String × Value) × List Char)
  | 0, _ => none
  | fuel + 1, cs =>
    match skipWs cs with
    | '"' :: cs2 =>
      match parseStringChars (cs2.length + 1) cs2 with
      | none => none
      | some (kcs, r) =>
        match skipWs r with
        | ':' :: r2 =>
          match parseVal fuel r2 with
          | none => none
          | some (v, r3) =>
            match skipWs r3 with
            | ',' :: r4 => (parseMembers fuel r4).map (fun p => ((String.mk kcs, v) :: p.1, p.2))
            | '\x7d' :: r4 => some ([(String.mk kcs, v)], r4)
            | _ => none
        | _ => none
    | _ => none
end

/-- Model of `json.loads`: parse a complete JSON document, requiring the
whole input to be consumed (modulo surrounding whitespace). -/
def parseJson (s : String) : Option Value :=
  match parseVal (2 * s.length + 2) s.data with
  | some (v, rest) => if skipWs rest = [] then some v else none
  | none => none

/-- The OpenAI-standard parameter names that are never treated as
pass-through extension parameters (`Pipeline.STANDARD_PARAMS`). -/
def STANDARD_PARAMS : List String :=
  ["model", "messages", "stream", "temperature", "max_tokens",
   "top_p", "frequency_penalty", "presence_penalty", "stop",
   "n", "logprobs", "echo", "best_of", "logit_bias", "user"]

/-- The standard optional parameters copied by the allow-list loop of
`_build_request_body` (lines 175-178). -/
def standardOptionalParams : List String :=
  ["temperature", "max_tokens", "top_p",
   "frequency_penalty", "presence_penalty", "stop"]

/-- The always-present base of the request body: model id, messages,
and `body.get("stream", True)`. -/
def baseBody (model_id : String) (messages : List Value) (body : Dict) : Dict :=
  [("model", Value.str model_id),
   ("messages", Value.list messages),
   ("stream", dgetD body "stream" (Value.bool true))]

/-- Allow-list step of `_build_request_body`: copy each standard optional
parameter from the caller map only when present and non-null. -/
def addStandardParams (body : Dict) (rb : Dict) : Dict :=
  standardOptionalParams.foldl
    (fun rb param =>
      match dget body param with
      | some v => if v.isNull then rb else dset rb param v
      | none => rb)
    rb

/-- Nested-extension step of `_build_request_body` (way 1): when the caller
map holds a dict under "extra_body", copy every key/value from it into the
request body unconditionally.  The second component is the debug log. -/
def addExtraBody (debugMode : Bool) (body : Dict) (rbl : Dict × List String) :
    Dict × List String :=
  match dget body "extra_body" with
  | some (Value.obj kvs) =>
    (kvs.foldl (fun rb kv => dset rb kv.1 kv.2) rbl.1,
     if debugMode then rbl.2 ++ ["extra_body params: " ++ pyRepr (Value.obj kvs)] else rbl.2)
  | _ => rbl

/-- One iteration of the flat pass-through loop of `_build_request_body`
(way 2): a top-level entry that is neither standard nor "extra_body"
itself is copied, but only when its key is not already present in the
request body. -/
def passthroughStep (debugMode : Bool) (rbl : Dict × List String) (kv : String × Value) :
    Dict × List String :=
  if kv.1 ∉ STANDARD_PARAMS ∧ kv.1 ≠ "extra_body" then
    if dcontains rbl.1 kv.1 then rbl
    else (dset rbl.1 kv.1 kv.2,
          if debugMode then
            rbl.2 ++ ["Passthrough param: " ++ kv.1 ++ "=" ++ pyStr kv.2]
          else rbl.2)
  else rbl

/-- Flat pass-through loop of `_build_request_body` (way 2), over every
top-level entry of the caller map in insertion order. -/
def addPassthrough (debugMode : Bool) (body : Dict) (rbl : Dict × List String) :
    Dict × List String :=
  body.foldl (passthroughStep debugMode) rbl

/-- `Pipeline._build_request_body`: build the outbound payload from the
model id, the message list, and the caller map.  The second component is
the sequence of debug log lines (emitted only when the DEBUG_MODE valve is
set); the payload is the first component. -/
def buildRequestBody (debugMode : Bool) (model_id : String) (messages : List Value)
    (body : Dict) : Dict × List String :=
  addPassthrough debugMode body
    (addExtraBody debugMode body (addStandardParams body (baseBody model_id messages body), []))

/-- The multimedia model identifiers of `pipe` (line 318). -/
def mediaModels : List String := ["Sora-2", "Runway-Gen-4-Turbo", "DALL-E-3", "Imagen"]

/-- Lines 315-322 of `pipe`: read `is_streaming` from the built body, and
force streaming off for media models when it is truthy.  Returns the
(possibly updated) request body and the final `is_streaming` value. -/
def applyMediaOverride (model_id : String) (rb : Dict) : Dict × Value :=
  let isStreaming := dgetD rb "stream" (Value.bool true)
  if model_id ∈ mediaModels ∧ pyTruthy isStreaming then
    (dset rb "stream" (Value.bool false), Value.bool false)
  else (rb, isStreaming)

/-- One upstream HTTP response: status code, body text, and the
`iter_lines()` sequence for streaming mode. -/
structure HttpResponse where
  status : Nat
  bodyText : String
  lines : List String

/-- The outcome of one `requests.post` call.  `timeoutExc`, `connError`
and `reqExc` are the `requests` exceptions `Timeout`, `ConnectionError`
and other `RequestException`s; all three are subclasses of
`requests.exceptions.RequestException`. -/
inductive AttemptResult where
  | resp : HttpResponse → AttemptResult
  | timeoutExc : String → AttemptResult
  | connError : String → AttemptResult
  | reqExc : String → AttemptResult

/-- An exception escaping `_make_request` into `pipe`, classified the way
the `except` clauses of `pipe` (lines 348-352) distinguish them. -/
inductive RaisedExc where
  | timeout : String → RaisedExc
  | connErr : String → RaisedExc
  | generic : String → RaisedExc

/-- Result of `_make_request`: either a returned response or a raised
exception, in both cases together with the number of outbound POST calls
that were performed. -/
inductive MakeResult where
  | success : HttpResponse → Nat → MakeResult
  | raised : RaisedExc → Nat → MakeResult

/-- `f"HTTP {status}"`, the retry-loop error detail for a 5xx response. -/
def httpErr (status : Nat) : String := "HTTP " ++ toString status

/-- The message of the exception raised when all attempts are exhausted
(line 232); `last_error` is `None` when no attempt recorded a detail. -/
def exhaustMsg (maxRetries : Nat) (lastError : Option String) : String :=
  "Request failed after " ++ toString maxRetries ++ " retries: " ++
    (match lastError with
     | some s => s
     | none => "None")

/-- The retry loop of `_make_request` over the remaining attempt outcomes.
A response with status below 500 is returned immediately; a 5xx response
or any `RequestException` (which includes `requests.exceptions.Timeout`
and `ConnectionError`) records the error detail and retries; when the
attempts are exhausted, a plain `Exception` with `exhaustMsg` is raised.
The backoff sleep has no observable effect in this model. -/
def makeRequestGo (maxRetries : Nat) : List AttemptResult → Option String → Nat → MakeResult
  | [], lastError, calls => MakeResult.raised (RaisedExc.generic (exhaustMsg maxRetries lastError)) calls
  | a :: rest, _, calls =>
    match a with
    | AttemptResult.resp r =>
      if r.status < 500 then MakeResult.success r (calls + 1)
      else makeRequestGo maxRetries rest (some (httpErr r.status)) (calls + 1)
    | AttemptResult.timeoutExc m => makeRequestGo maxRetries rest (some m) (calls + 1)
    | AttemptResult.connError m => makeRequestGo maxRetries rest (some m) (calls + 1)
    | AttemptResult.reqExc m => makeRequestGo maxRetries rest (some m) (calls + 1)

/-- `Pipeline._make_request`: up to MAX_RETRIES outbound POST calls of the
request body, where `transport` gives the outcome of the i-th call. -/
def makeRequest (transport : Dict → Nat → AttemptResult) (body : Dict)
    (maxRetries : Nat) : MakeResult :=
  makeRequestGo maxRetries ((List.range maxRetries).map (transport body)) none 0

/-- `s.startswith(pre)` on Python strings, written over character lists
so that it evaluates by kernel reduction. -/
def pyStartsWith (s pre : String) : Bool :=
  pre.data.isPrefixOf s.data

/-- `s[n:]` on Python strings (slicing is by characters). -/
def pyDrop (s : String) (n : Nat) : String :=
  String.mk (s.data.drop n)

/-- The characters `str.isspace()` recognizes, which `str.strip()`
strips: ASCII tab through carriage return and space (including \x0b and
\x0c), the file/group/record/unit separators \x1c-\x1f, next line
\x85, and the Unicode space separators. -/
def pyIsSpace (c : Char) : Bool :=
  (9 ≤ c.toNat ∧ c.toNat ≤ 13) ∨ (28 ≤ c.toNat ∧ c.toNat ≤ 31) ∨ c.toNat = 32 ∨
  c.toNat = 0x85 ∨ c.toNat = 0xa0 ∨ c.toNat = 0x1680 ∨
  (0x2000 ≤ c.toNat ∧ c.toNat ≤ 0x200a) ∨ c.toNat = 0x2028 ∨ c.toNat = 0x2029 ∨
  c.toNat = 0x202f ∨ c.toNat = 0x205f ∨ c.toNat = 0x3000

/-- `s.strip()`: remove whitespace from both ends. -/
def pyStrip (s : String) : String :=
  String.mk (((s.data.dropWhile pyIsSpace).reverse.dropWhile pyIsSpace).reverse)

/-- The payload of a "data:" line: `line_str[5:].strip()`. -/
def dataPayload (line : String) : String :=
  pyStrip (pyDrop line 5)

/-- `v.get(k, dflt)` on an arbitrary value: only dicts have `.get`;
anything else raises `AttributeError`. -/
def pyGetD (v : Value) (k : String) (dflt : Value) : Except String Value :=
  match v with
  | Value.obj kvs => Except.ok ((dget kvs k).getD dflt)
  | _ => Except.error "AttributeError"

/-- `v[0]` on an arbitrary value: lists and strings are subscriptable
(an empty one raises `IndexError`); everything else raises. -/
def index0 : Value → Except String Value
  | Value.list (x :: _) => Except.ok x
  | Value.list [] => Except.error "IndexError"
  | Value.str s =>
    match s.data with
    | c :: _ => Except.ok (Value.str (String.mk [c]))
    | [] => Except.error "IndexError"
  | _ => Except.error "TypeError"

/-- Lines 250-254 of `_stream_response`, applied to one parsed payload:
`choices = data.get("choices", [])`; when truthy, extract
`choices[0].get("delta", {}).get("content", "")` and emit it when truthy.
`Except.error` is an exception escaping the generator (only
`json.JSONDecodeError` is caught there). -/
def extractLine (data : Value) : Except String (Option Value) :=
  match pyGetD data "choices" (Value.list []) with
  | Except.error e => Except.error e
  | Except.ok choices =>
    if pyTruthy choices then
      match index0 choices with
      | Except.error e => Except.error e
      | Except.ok c0 =>
        match pyGetD c0 "delta" (Value.obj []) with
        | Except.error e => Except.error e
        | Except.ok delta =>
          match pyGetD delta "content" (Value.str "") with
          | Except.error e => Except.error e
          | Except.ok content =>
            Except.ok (if pyTruthy content then some content else none)
    else Except.ok none

/-- `Pipeline._stream_response` over the decoded response lines: skip empty
lines and lines without the "data:" marker, stop at the "[DONE]" sentinel,
silently skip lines whose payload is not valid JSON, and emit each truthy
delta content.  The result is the emitted fragment sequence together with
the message of an exception escaping the generator, if any (extraction on
a parsed payload of the wrong shape raises and ends iteration). -/
def streamResponse : List String → List Value × Option String
  | [] => ([], none)
  | line :: rest =>
    if line = "" then streamResponse rest
    else if pyStartsWith line "data:" then
      let ds := dataPayload line
      if ds = "[DONE]" then ([], none)
      else
        match parseJson ds with
        | none => streamResponse rest
        | some v =>
          match extractLine v with
          | Except.error e => ([], some e)
          | Except.ok none => streamResponse rest
          | Except.ok (some c) =>
            let p := streamResponse rest
            (c :: p.1, p.2)
    else streamResponse rest

/-- `Pipeline._parse_response`: parse the buffered body as JSON and return
the first choice's message content, or `""` when there are no choices.
`Except.error` is an exception (bad JSON, or extraction on a value of the
wrong shape); inside `pipe` it is caught by the generic handler. -/
def parseResponse (bodyText : String) : Except String Value :=
  match parseJson bodyText with
  | none => Except.error "JSONDecodeError"
  | some data =>
    match pyGetD data "choices" (Value.list []) with
    | Except.error e => Except.error e
    | Except.ok choices =>
      if pyTruthy choices then
        match index0 choices with
        | Except.error e => Except.error e
        | Except.ok c0 =>
          match pyGetD c0 "message" (Value.obj []) with
          | Except.error e => Except.error e
          | Except.ok msg => pyGetD msg "content" (Value.str "")
      else Except.ok (Value.str "")

/-- The human-readable category for a status code (`status_messages`). -/
def statusMessage (status : Nat) : String :=
  if status = 400 then "请求参数错误"
  else if status = 401 then "API Key 无效"
  else if status = 403 then "无权访问此模型"
  else if status = 404 then "模型不存在"
  else if status = 429 then "请求频率超限"
  else if status = 500 then "服务器错误"
  else "请求失败"

/-- `Pipeline._format_error`: extract `error.message` from the JSON body,
falling back to the first 500 characters of the raw text whenever the
extraction raises (bare `except`), and prepend the status category. -/
def formatError (r : HttpResponse) : String :=
  let errMsg : String :=
    match parseJson r.bodyText with
    | none => r.bodyText.take 500
    | some data =>
      match data with
      | Value.obj kvs =>
        match (dget kvs "error").getD (Value.obj []) with
        | Value.obj e => pyStr ((dget e "message").getD (Value.str r.bodyText))
        | _ => r.bodyText.take 500
      | _ => r.bodyText.take 500
  "❌ **" ++ statusMessage r.status ++ "** (HTTP " ++ toString r.status ++ ")\n\n" ++ errMsg

/-- The `except` clauses at the end of `pipe` (lines 348-354), mapping an
escaped exception to the user-facing message. -/
def pipeCatch (e : RaisedExc) (timeoutSecs : Nat) : String :=
  match e with
  | RaisedExc.timeout _ => "❌ **超时**: 请求超过 " ++ toString timeoutSecs ++ " 秒"
  | RaisedExc.connErr _ => "❌ **连接失败**: 无法连接 Poe API"
  | RaisedExc.generic m => "❌ **错误**: " ++ m

/-- What `pipe` hands back to the host: a plain string (error messages),
the buffered parse result, or the streaming fragment sequence (with the
message of an exception raised during host-side iteration, if any). -/
inductive PipeOut where
  | text : String → PipeOut
  | buffered : Value → PipeOut
  | stream : List Value → Option String → PipeOut

/-- `Pipeline.pipe`: validate the API key, build the request body, apply
the media-model streaming override, perform the retried request, and
dispatch on the outcome.  The second component counts the outbound POST
calls made by the transport. -/
def pipe (apiKey : String) (debugMode : Bool) (maxRetries timeoutSecs : Nat)
    (transport : Dict → Nat → AttemptResult) (model_id : String)
    (messages : List Value) (body : Dict) : PipeOut × Nat :=
  if apiKey = "" then (PipeOut.text "❌ **错误**: 未配置 Poe API Key", 0)
  else
    let rb := (buildRequestBody debugMode model_id messages body).1
    let ov := applyMediaOverride model_id rb
    match makeRequest transport ov.1 maxRetries with
    | MakeResult.success r calls =>
      if 400 ≤ r.status then (PipeOut.text (formatError r), calls)
      else if pyTruthy ov.2 then
        let s := streamResponse r.lines
        (PipeOut.stream s.1 s.2, calls)
      else
        match parseResponse r.bodyText with
        | Except.ok v => (PipeOut.buffered v, calls)
        | Except.error e => (PipeOut.text ("❌ **错误**: " ++ e), calls)
    | MakeResult.raised e calls => (PipeOut.text (pipeCatch e timeoutSecs), calls)

/-- One catalog entry as built by `_refresh_models`
(`{"id": model_id, "name": model.get("name", model_id)}`). -/
structure ModelEntry where
  id : Value
  name : Value

/-- The static fallback model catalog (`Pipeline.FALLBACK_MODELS`). -/
def FALLBACK_MODELS : List ModelEntry :=
  [⟨Value.str "GPT-5.2", Value.str "GPT-5.2"⟩,
   ⟨Value.str "GPT-5.2-Pro", Value.str "GPT-5.2-Pro"⟩,
   ⟨Value.str "GPT-5.2-Instant", Value.str "GPT-5.2-Instant"⟩,
   ⟨Value.str "Claude-Sonnet-4.5", Value.str "Claude-Sonnet-4.5"⟩,
   ⟨Value.str "Claude-Opus-4.5", Value.str "Claude-Opus-4.5"⟩,
   ⟨Value.str "Claude-Opus-4.1", Value.str "Claude-Opus-4.1"⟩,
   ⟨Value.str "Claude-Haiku-4.5", Value.str "Claude-Haiku-4.5"⟩,
   ⟨Value.str "Gemini-3-Pro", Value.str "Gemini-3-Pro"⟩,
   ⟨Value.str "Gemini-3-Flash", Value.str "Gemini-3-Flash"⟩,
   ⟨Value.str "Grok-4", Value.str "Grok-4"⟩,
   ⟨Value.str "GLM-4.7", Value.str "GLM-4.7"⟩,
   ⟨Value.str "Minimax-M2.1", Value.str "Minimax-M2.1"⟩]

/-- The outcome of the `requests.get(".../models")` call in
`_refresh_models`: a raised exception, or a response whose JSON body is
`none` when `response.json()` would raise. -/
inductive FetchResult where
  | exc : String → FetchResult
  | resp : Nat → Option Value → FetchResult

/-- The model-collection loop of `_refresh_models` (lines 136-142): each
element must be a dict (`model.get` on anything else raises); entries with
a truthy id are appended with `model.get("name", model_id)`. -/
def collectModels : List Value → List ModelEntry → Except String (List ModelEntry)
  | [], acc => Except.ok acc
  | item :: rest, acc =>
    match item with
    | Value.obj m =>
      let mid := (dget m "id").getD (Value.str "")
      if pyTruthy mid then
        collectModels rest (acc ++ [⟨mid, (dget m "name").getD mid⟩])
      else collectModels rest acc
    | _ => Except.error "AttributeError"

/-- `data.get("data", [])` followed by the iteration of line 136: `data`
must be a dict; iterating a non-list raises unless it is empty (iterating
a string yields characters, on which `.get` raises; iterating a non-empty
dict yields string keys, on which `.get` raises; numbers and null are not
iterable). -/
def extractModels (data : Value) : Except String (List ModelEntry) :=
  match data with
  | Value.obj kvs =>
    match (dget kvs "data").getD (Value.list []) with
    | Value.list items => collectModels items []
    | Value.str s => if s = "" then Except.ok [] else Except.error "AttributeError"
    | Value.obj [] => Except.ok []
    | Value.obj (_ :: _) => Except.error "AttributeError"
    | _ => Except.error "TypeError"
  | _ => Except.error "AttributeError"

/-- The `try` block of `_refresh_models` (lines 126-147): `some catalog`
when the success path assigns and returns at line 147, `none` when control
falls through to the fallback assignment (non-200 status, unparsable
body, a raised exception, or an empty model list). -/
def refreshTry (fetch : FetchResult) : Option (List ModelEntry) :=
  match fetch with
  | FetchResult.exc _ => none
  | FetchResult.resp status jsonBody =>
    if status = 200 then
      match jsonBody with
      | none => none
      | some data =>
        match extractModels data with
        | Except.error _ => none
        | Except.ok models => if models.isEmpty then none else some models
    else none

/-- `Pipeline._refresh_models`: the value of `self.pipelines` after the
refresh.  An empty API key short-circuits to the fallback; otherwise the
catalog is replaced by the fetched entries exactly when the try block
succeeds with a non-empty list, and restored to the fallback otherwise.
The operation is total: every exception path is caught inside. -/
def refreshModels (apiKey : String) (fetch : FetchResult) : List ModelEntry :=
  if apiKey = "" then FALLBACK_MODELS
  else
    match refreshTry fetch with
    | some catalog => catalog
    | none => FALLBACK_MODELS

/-- Whether a line is the "[DONE]" sentinel of the event stream. -/
def isDone (line : String) : Bool :=
  pyStartsWith line "data:" && (dataPayload line == "[DONE]")

/-- The first choice's incremental delta content string of a parsed
streaming payload, following the wording of the specification: the value
at `choices[0].delta.content` when it is a string, and nothing otherwise. -/
def deltaContent (v : Value) : Option String :=
  match v with
  | Value.obj kvs =>
    match dget kvs "choices" with
    | some (Value.list (c0 :: _)) =>
      match c0 with
      | Value.obj cf =>
        match dget cf "delta" with
        | some (Value.obj d) =>
          match dget d "content" with
          | some (Value.str s) => some s
          | _ => none
        | _ => none
      | _ => none
    | _ => none
  | _ => none

/-- Specification-side description of what one line contributes: the
non-empty delta content string of a "data:"-prefixed, non-sentinel line
whose payload parses as JSON. -/
def fragOf (line : String) : Option String :=
  if pyStartsWith line "data:" ∧ ¬ isDone line then
    match parseJson (dataPayload line) with
    | some v =>
      match deltaContent v with
      | some s => if s = "" then none else some s
      | none => none
    | none => none
  else none

/-- Specification-side description of the whole streaming normalization:
the fragments contributed by the significant lines preceding the first
"[DONE]" sentinel, in order. -/
def specFragments (lines : List String) : List String :=
  (lines.takeWhile (fun l => !(isDone l))).filterMap fragOf

/-- A parsed payload on which the extraction of `_stream_response` does
not raise, and whose emitted content (if any) is a string. -/
def goodPayload (v : Value) : Bool :=
  match extractLine v with
  | Except.ok none => true
  | Except.ok (some (Value.str _)) => true
  | _ => false

/-- A line that cannot make `_stream_response` raise: either insignificant,
the sentinel, unparsable, or parsing to a good payload. -/
def goodLine (line : String) : Bool :=
  if pyStartsWith line "data:" then
    if dataPayload line = "[DONE]" then true
    else
      match parseJson (dataPayload line) with
      | some v => goodPayload v
      | none => true
  else true

/-- Remove every binding of a key from a caller map (`del d[k]`). -/
def derase (d : Dict) (k : String) : Dict :=
  d.filter (fun p => p.1 ≠ k)

theorem dget_cons (p : String × Value) (d : Dict) (k : String) :
    dget (p :: d) k = if p.1 = k then some p.2 else dget d k := by
  by_cases h : p.1 = k <;>
    simp [dget, List.find?_cons_of_pos, List.find?_cons_of_neg, h]

theorem dget_nil (k : String) : dget [] k = none := rfl

theorem dget_dset_self (d : Dict) (k : String) (v : Value) :
    dget (dset d k v) k = some v := by
  induction d with
  | nil => simp [dget, dset]
  | cons p rest ih =>
    by_cases h : p.1 = k
    · simp [dset, h, dget_cons]
    · simp [dset, h, dget_cons, ih]

theorem dget_dset_ne (d : Dict) (k k2 : String) (v : Value) (h : k ≠ k2) :
    dget (dset d k2 v) k = dget d k := by
  induction d with
  | nil => simp [dget, dset, dget_cons, Ne.symm h]
  | cons p rest ih =>
    by_cases hp : p.1 = k2
    · simp [dset, hp, dget_cons, Ne.symm h, hp ▸ (Ne.symm h)]
    · simp [dset, hp, dget_cons, ih]

theorem isNull_eq_false_iff (v : Value) : v.isNull = false ↔ v ≠ Value.null := by
  cases v <;> simp [Value.isNull]

theorem dget_addStandardParams_of_not_mem (body : Dict) (l : List String) (rb : Dict)
    (k : String) (hk : k ∉ l) :
    dget (l.foldl
      (fun rb param =>
        match dget body param with
        | some v => if v.isNull then rb else dset rb param v
        | none => rb) rb) k = dget rb k := by
  induction l generalizing rb with
  | nil => rfl
  | cons q rest ih =>
    have hqk : q ≠ k := fun h => hk (h ▸ List.mem_cons_self q rest)
    have hrest : k ∉ rest := fun h => hk (List.mem_cons_of_mem q h)
    simp only [List.foldl_cons]
    rw [ih _ hrest]
    cases hv : dget body q with
    | none => rfl
    | some v =>
      by_cases hn : v.isNull = true
      · simp [hn]
      · simp only [hn, if_false]
        exact dget_dset_ne rb k q v (Ne.symm hqk)

theorem addStandardParams_ne_null (body : Dict) (l : List String) (rb : Dict)
    (k : String) (h : dget rb k ≠ some Value.null) :
    dget (l.foldl
      (fun rb param =>
        match dget body param with
        | some v => if v.isNull then rb else dset rb param v
        | none => rb) rb) k ≠ some Value.null := by
  induction l generalizing rb with
  | nil => exact h
  | cons q rest ih =>
    simp only [List.foldl_cons]
    apply ih
    cases hv : dget body q with
    | none => exact h
    | some v =>
      by_cases hn : v.isNull = true
      · simpa [hn] using h
      · show dget (if v.isNull = true then rb else dset rb q v) k ≠ some Value.null
        rw [if_neg hn]
        by_cases hq : q = k
        · subst hq
          rw [dget_dset_self]
          intro hc
          exact ((isNull_eq_false_iff v).mp (Bool.not_eq_true _ ▸ hn)) (Option.some_inj.mp hc)
        · rw [dget_dset_ne rb k q v (Ne.symm hq)]
          exact h

theorem dget_foldl_dset_of_not_mem (kvs : List (String × Value)) (rb : Dict) (k : String)
    (h : ∀ q ∈ kvs, q.1 ≠ k) :
    dget (kvs.foldl (fun rb kv => dset rb kv.1 kv.2) rb) k = dget rb k := by
  induction kvs generalizing rb with
  | nil => rfl
  | cons q rest ih =>
    simp only [List.foldl_cons]
    rw [ih _ (fun p hp => h p (List.mem_cons_of_mem q hp))]
    exact dget_dset_ne rb k q.1 q.2 (Ne.symm (h q (List.mem_cons_self q rest)))

theorem dget_foldl_dset_mem (kvs : List (String × Value)) (rb : Dict) (k : String) (v : Value)
    (hnd : (kvs.map Prod.fst).Nodup) (hk : dget kvs k = some v) :
    dget (kvs.foldl (fun rb kv => dset rb kv.1 kv.2) rb) k = some v := by
  induction kvs generalizing rb with
  | nil => simp [dget] at hk
  | cons q rest ih =>
    simp only [List.map_cons, List.nodup_cons] at hnd
    by_cases hq : q.1 = k
    · rw [dget_cons, if_pos hq] at hk
      have hrest : ∀ p ∈ rest, p.1 ≠ k := by
        intro p hp hpk
        exact hnd.1 (hq ▸ hpk ▸ List.mem_map_of_mem Prod.fst hp)
      simp only [List.foldl_cons]
      rw [dget_foldl_dset_of_not_mem rest _ k hrest, hq, dget_dset_self]
      exact hk
    · rw [dget_cons, if_neg hq] at hk
      simp only [List.foldl_cons]
      exact ih _ hnd.2 hk

theorem foldl_dset_ne_null (kvs : List (String × Value)) (rb : Dict) (k : String)
    (h : dget rb k ≠ some Value.null)
    (hall : ∀ q ∈ kvs, q.1 = k → q.2 ≠ Value.null) :
    dget (kvs.foldl (fun rb kv => dset rb kv.1 kv.2) rb) k ≠ some Value.null := by
  induction kvs generalizing rb with
  | nil => exact h
  | cons q rest ih =>
    simp only [List.foldl_cons]
    apply ih
    · by_cases hq : q.1 = k
      · rw [hq, dget_dset_self]
        intro hc
        exact hall q (List.mem_cons_self q rest) hq (Option.some_inj.mp hc)
      · rw [dget_dset_ne rb k q.1 q.2 (Ne.symm hq)]
        exact h
    · exact fun p hp => hall p (List.mem_cons_of_mem q hp)

theorem addExtraBody_obj (debugMode : Bool) (body : Dict) (rbl : Dict × List String)
    (kvs : List (String × Value)) (hx : dget body "extra_body" = some (Value.obj kvs)) :
    (addExtraBody debugMode body rbl).1 =
      kvs.foldl (fun rb kv => dset rb kv.1 kv.2) rbl.1 := by
  simp [addExtraBody, hx]

theorem addExtraBody_not_obj (debugMode : Bool) (body : Dict) (rbl : Dict × List String)
    (hx : ∀ kvs, dget body "extra_body" ≠ some (Value.obj kvs)) :
    addExtraBody debugMode body rbl = rbl := by
  unfold addExtraBody
  cases hv : dget body "extra_body" with
  | none => rfl
  | some v =>
    cases v with
    | obj kvs => exact absurd hv (hx kvs)
    | null => rfl
    | bool b => rfl
    | int n => rfl
    | float f => rfl
    | str s => rfl
    | list xs => rfl

theorem passthroughStep_fst_eq (d1 d2 : Bool) (rb : Dict) (l1 l2 : List String)
    (kv : String × Value) :
    (passthroughStep d1 (rb, l1) kv).1 = (passthroughStep d2 (rb, l2) kv).1 := by
  unfold passthroughStep
  by_cases hc : kv.1 ∉ STANDARD_PARAMS ∧ kv.1 ≠ "extra_body"
  · rw [if_pos hc, if_pos hc]
    by_cases hd : dcontains rb kv.1 = true
    · simp [hd]
    · simp [hd]
  · rw [if_neg hc, if_neg hc]

theorem addPassthrough_fst_eq (d1 d2 : Bool) (body : Dict) (rb : Dict) (l1 l2 : List String) :
    (addPassthrough d1 body (rb, l1)).1 = (addPassthrough d2 body (rb, l2)).1 := by
  induction body generalizing rb l1 l2 with
  | nil => rfl
  | cons kv rest ih =>
    simp only [addPassthrough, List.foldl_cons] at *
    have hstep := passthroughStep_fst_eq d1 d2 rb l1 l2 kv
    have h1 : passthroughStep d1 (rb, l1) kv =
        ((passthroughStep d1 (rb, l1) kv).1, (passthroughStep d1 (rb, l1) kv).2) := rfl
    have h2 : passthroughStep d2 (rb, l2) kv =
        ((passthroughStep d2 (rb, l2) kv).1, (passthroughStep d2 (rb, l2) kv).2) := rfl
    rw [h1, h2, hstep]
    exact ih _ _ _

theorem dget_addPassthrough (debugMode : Bool) (body : Dict) (rbl : Dict × List String)
    (k : String)
    (h : (dget rbl.1 k).isSome = true ∨ k ∈ STANDARD_PARAMS ∨ k = "extra_body") :
    dget (addPassthrough debugMode body rbl).1 k = dget rbl.1 k := by
  induction body generalizing rbl with
  | nil => rfl
  | cons kv rest ih =>
    simp only [addPassthrough, List.foldl_cons] at *
    have hstep : dget (passthroughStep debugMode rbl kv).1 k = dget rbl.1 k := by
      unfold passthroughStep
      by_cases hc : kv.1 ∉ STANDARD_PARAMS ∧ kv.1 ≠ "extra_body"
      · rw [if_pos hc]
        by_cases hd : dcontains rbl.1 kv.1 = true
        · rw [if_pos hd]
        · rw [if_neg hd]
          have hk : kv.1 ≠ k := by
            intro he
            rcases h with h | h | h
            · rw [he] at hd
              exact hd h
            · exact hc.1 (he ▸ h)
            · exact hc.2 (he.trans h)
          exact dget_dset_ne rbl.1 k kv.1 kv.2 (Ne.symm hk)
      · rw [if_neg hc]
    rw [ih (passthroughStep debugMode rbl kv)]
    · exact hstep
    · rw [hstep]
      exact h

theorem addExtraBody_fst_eq (d1 d2 : Bool) (body : Dict) (rb : Dict) (l1 l2 : List String) :
    (addExtraBody d1 body (rb, l1)).1 = (addExtraBody d2 body (rb, l2)).1 := by
  cases hv : dget body "extra_body" with
  | none => simp [addExtraBody, hv]
  | some v => cases v <;> simp [addExtraBody, hv]

theorem dget_baseBody_other (mid : String) (msgs : List Value) (body : Dict) (k : String)
    (h1 : k ≠ "model") (h2 : k ≠ "messages") (h3 : k ≠ "stream") :
    dget (baseBody mid msgs body) k = none := by
  unfold baseBody
  rw [dget_cons, if_neg (fun h => h1 h.symm), dget_cons, if_neg (fun h => h2 h.symm),
    dget_cons, if_neg (fun h => h3 h.symm)]
  rfl

theorem dget_baseBody_stream (mid : String) (msgs : List Value) (body : Dict) :
    dget (baseBody mid msgs body) "stream" = some (dgetD body "stream" (Value.bool true)) := by
  simp [baseBody, dget_cons]

/-- C9: for every model id, message list, and caller map, the payload
component of `_build_request_body` is the same regardless of the mutable
object state it can read (the DEBUG_MODE valve, which only controls
logging): building the request body twice from the same inputs — even
with a valve update in between — yields structurally equal payloads. -/
theorem c9_build_request_body_deterministic (d1 d2 : Bool) (model_id : String)
    (messages : List Value) (body : Dict) :
    (buildRequestBody d1 model_id messages body).1 =
      (buildRequestBody d2 model_id messages body).1 := by
  unfold buildRequestBody
  have heq := addExtraBody_fst_eq d1 d2 body
    (addStandardParams body (baseBody model_id messages body)) [] []
  calc (addPassthrough d1 body
          (addExtraBody d1 body (addStandardParams body (baseBody model_id messages body), []))).1
      = (addPassthrough d2 body
          ((addExtraBody d1 body (addStandardParams body (baseBody model_id messages body), [])).1,
           (addExtraBody d2 body (addStandardParams body (baseBody model_id messages body), [])).2)).1 :=
        addPassthrough_fst_eq d1 d2 body _ _ _
    _ = (addPassthrough d2 body
          (addExtraBody d2 body (addStandardParams body (baseBody model_id messages body), []))).1 := by
        rw [heq]

/-- C1: when a key appears both inside the nested extra_body object and as
a flat top-level key with a different value, the built payload maps the
key to the nested extra_body value: the flat pass-through loop copies a
remaining top-level key only when it is not already present. -/
theorem c1_extra_body_precedence (debugMode : Bool) (model_id : String)
    (messages : List Value) (body : Dict) (k : String) (v1 v2 : Value)
    (kvs : List (String × Value))
    (hx : dget body "extra_body" = some (Value.obj kvs))
    (hnd : (kvs.map Prod.fst).Nodup)
    (hk : dget kvs k = some v1)
    (hflat : dget body k = some v2)
    (hne : v1 ≠ v2) :
    dget (buildRequestBody debugMode model_id messages body).1 k = some v1 := by
  unfold buildRequestBody
  have hE : dget (addExtraBody debugMode body
      (addStandardParams body (baseBody model_id messages body), [])).1 k = some v1 := by
    rw [addExtraBody_obj debugMode body _ kvs hx]
    exact dget_foldl_dset_mem kvs _ k v1 hnd hk
  rw [dget_addPassthrough debugMode body _ k (Or.inl (by rw [hE]; rfl))]
  exact hE

/-- C1 witness: a caller map carrying "myparam" both flat and nested. -/
theorem c1_extra_body_precedence_witness :
    dget (buildRequestBody false "GPT-5.2" []
      [("myparam", Value.str "flat"),
       ("extra_body", Value.obj [("myparam", Value.str "nested")])]).1 "myparam" =
      some (Value.str "nested") :=
  c1_extra_body_precedence false "GPT-5.2" []
    [("myparam", Value.str "flat"),
     ("extra_body", Value.obj [("myparam", Value.str "nested")])]
    "myparam" (Value.str "nested") (Value.str "flat")
    [("myparam", Value.str "nested")]
    rfl (by simp) rfl rfl (fun h => by simp at h)

theorem dget_derase_ne (d : Dict) (k0 k : String) (h : k ≠ k0) :
    dget (derase d k0) k = dget d k := by
  induction d with
  | nil => rfl
  | cons p rest ih =>
    by_cases hp : p.1 = k0
    · have hpk : p.1 ≠ k := fun he => h (he ▸ hp)
      simp only [derase, List.filter_cons, hp, dget_cons] at *
      simp only [decide_not, decide_eq_true_eq] at *
      rw [if_neg (by simp [hp]), if_neg hpk] at *
      exact ih
    · simp only [derase, List.filter_cons] at *
      rw [if_pos (by simp [hp])]
      rw [dget_cons, dget_cons]
      by_cases he : p.1 = k
      · rw [if_pos he, if_pos he]
      · rw [if_neg he, if_neg he]
        exact ih

theorem dget_derase_self (d : Dict) (k0 : String) :
    dget (derase d k0) k0 = none := by
  induction d with
  | nil => rfl
  | cons p rest ih =>
    by_cases hp : p.1 = k0
    · simp only [derase, List.filter_cons] at *
      rw [if_neg (by simp [hp])]
      exact ih
    · simp only [derase, List.filter_cons] at *
      rw [if_pos (by simp [hp]), dget_cons, if_neg hp]
      exact ih

theorem addStandardParams_congr (body1 body2 : Dict) (l : List String) (rb : Dict)
    (h : ∀ q ∈ l, dget body1 q = dget body2 q) :
    l.foldl
      (fun rb param =>
        match dget body1 param with
        | some v => if v.isNull then rb else dset rb param v
        | none => rb) rb =
    l.foldl
      (fun rb param =>
        match dget body2 param with
        | some v => if v.isNull then rb else dset rb param v
        | none => rb) rb := by
  induction l generalizing rb with
  | nil => rfl
  | cons q rest ih =>
    simp only [List.foldl_cons]
    rw [h q (List.mem_cons_self q rest)]
    exact ih _ (fun p hp => h p (List.mem_cons_of_mem q hp))

theorem addPassthrough_derase (debugMode : Bool) (body : Dict) (rbl : Dict × List String) :
    addPassthrough debugMode body rbl =
      addPassthrough debugMode (derase body "extra_body") rbl := by
  induction body generalizing rbl with
  | nil => rfl
  | cons kv rest ih =>
    by_cases hk : kv.1 = "extra_body"
    · have hstep : passthroughStep debugMode rbl kv = rbl := by
        unfold passthroughStep
        rw [if_neg (fun hc => hc.2 hk)]
      simp only [addPassthrough, List.foldl_cons, derase, List.filter_cons] at *
      rw [if_neg (by simp [hk]), hstep]
      exact ih rbl
    · simp only [addPassthrough, List.foldl_cons, derase, List.filter_cons] at *
      rw [if_pos (by simp [hk])]
      simp only [List.foldl_cons]
      exact ih _

/-- C10: when the caller map holds "extra_body" with a non-dict value, the
built payload is the same as if the entry were absent: the value is
neither expanded as nested extension parameters nor passed through, and
the payload contains no "extra_body" key. -/
theorem c10_non_dict_extra_body_dropped (debugMode : Bool) (model_id : String)
    (messages : List Value) (body : Dict) (v : Value)
    (hx : dget body "extra_body" = some v)
    (hv : ∀ kvs, v ≠ Value.obj kvs) :
    buildRequestBody debugMode model_id messages body =
      buildRequestBody debugMode model_id messages (derase body "extra_body") ∧
    dget (buildRequestBody debugMode model_id messages body).1 "extra_body" = none := by
  have h1 : ∀ kvs, dget body "extra_body" ≠ some (Value.obj kvs) := by
    intro kvs hc
    rw [hx] at hc
    exact hv kvs (Option.some_inj.mp hc)
  have h2 : ∀ kvs, dget (derase body "extra_body") "extra_body" ≠ some (Value.obj kvs) := by
    intro kvs hc
    rw [dget_derase_self] at hc
    exact Option.noConfusion hc
  have hbase : baseBody model_id messages (derase body "extra_body") =
      baseBody model_id messages body := by
    unfold baseBody dgetD
    rw [dget_derase_ne body "extra_body" "stream" (by decide)]
  have hstd : addStandardParams (derase body "extra_body") (baseBody model_id messages body) =
      addStandardParams body (baseBody model_id messages body) := by
    unfold addStandardParams
    exact (addStandardParams_congr body (derase body "extra_body") standardOptionalParams _
      (fun q hq => (dget_derase_ne body "extra_body" q
        (fun he => by subst he; revert hq; decide)).symm)).symm
  constructor
  · unfold buildRequestBody
    rw [addExtraBody_not_obj debugMode body _ h1, addExtraBody_not_obj debugMode _ _ h2,
      hbase, hstd]
    exact addPassthrough_derase debugMode body _
  · unfold buildRequestBody
    rw [dget_addPassthrough debugMode body _ "extra_body" (Or.inr (Or.inr rfl)),
      addExtraBody_not_obj debugMode body _ h1]
    show dget (addStandardParams body (baseBody model_id messages body)) "extra_body" = none
    unfold addStandardParams
    rw [dget_addStandardParams_of_not_mem body standardOptionalParams _ "extra_body" (by decide)]
    exact dget_baseBody_other model_id messages body "extra_body"
      (by decide) (by decide) (by decide)

/-- C10 witness: an "extra_body" holding a plain string is dropped. -/
theorem c10_non_dict_extra_body_dropped_witness :
    buildRequestBody false "GPT-5.2" []
        [("extra_body", Value.str "oops"), ("foo", Value.int 1)] =
      buildRequestBody false "GPT-5.2" []
        (derase [("extra_body", Value.str "oops"), ("foo", Value.int 1)] "extra_body") ∧
    dget (buildRequestBody false "GPT-5.2" []
        [("extra_body", Value.str "oops"), ("foo", Value.int 1)]).1 "extra_body" = none :=
  c10_non_dict_extra_body_dropped false "GPT-5.2" []
    [("extra_body", Value.str "oops"), ("foo", Value.int 1)] (Value.str "oops")
    rfl (fun kvs h => Value.noConfusion h)

/-- C5 counterexample: the claim fails as stated — a null supplied inside
the nested extra_body object is copied unconditionally, so the built
payload can map the standard allow-list key "temperature" to null. -/
theorem c5_counterexample_null_via_extra_body :
    "temperature" ∈ standardOptionalParams ∧
    dget (buildRequestBody false "GPT-5.2" []
        [("extra_body", Value.obj [("temperature", Value.null)])]).1 "temperature" =
      some Value.null :=
  ⟨by decide, rfl⟩

/-- C5 amended: the allow-list step copies a standard optional parameter
only when present and non-null, so the built payload maps a standard
allow-list key to null only when the caller's nested extra_body object
itself binds that key to null; whenever it does not, the payload never
holds that key with a null value. -/
theorem c5_no_null_standard_param (debugMode : Bool) (model_id : String)
    (messages : List Value) (body : Dict) (p : String)
    (hp : p ∈ standardOptionalParams)
    (he : ∀ kvs v, dget body "extra_body" = some (Value.obj kvs) →
      (p, v) ∈ kvs → v ≠ Value.null) :
    dget (buildRequestBody debugMode model_id messages body).1 p ≠ some Value.null := by
  have hfacts : p ≠ "model" ∧ p ≠ "messages" ∧ p ≠ "stream" ∧ p ∈ STANDARD_PARAMS := by
    simp only [standardOptionalParams, List.mem_cons, List.not_mem_nil, or_false] at hp
    rcases hp with rfl | rfl | rfl | rfl | rfl | rfl <;>
      exact ⟨by decide, by decide, by decide, by decide⟩
  have hbase : dget (baseBody model_id messages body) p = none :=
    dget_baseBody_other model_id messages body p hfacts.1 hfacts.2.1 hfacts.2.2.1
  have hstd : dget (addStandardParams body (baseBody model_id messages body)) p ≠
      some Value.null := by
    unfold addStandardParams
    apply addStandardParams_ne_null
    rw [hbase]
    exact fun h => Option.noConfusion h
  have hext : dget (addExtraBody debugMode body
      (addStandardParams body (baseBody model_id messages body), [])).1 p ≠
      some Value.null := by
    cases hv : dget body "extra_body" with
    | none =>
      rw [addExtraBody_not_obj debugMode body _
        (fun kvs hc => by rw [hv] at hc; exact Option.noConfusion hc)]
      exact hstd
    | some v =>
      cases v with
      | obj kvs =>
        rw [addExtraBody_obj debugMode body _ kvs hv]
        apply foldl_dset_ne_null kvs _ p hstd
        intro q hq hqp
        have hq2 : (p, q.2) ∈ kvs := by
          rw [show (p, q.2) = q from by cases q with | mk a b => cases hqp; rfl]
          exact hq
        exact he kvs q.2 hv hq2
      | null =>
        rw [addExtraBody_not_obj debugMode body _
          (fun kvs hc => by rw [hv] at hc; exact Value.noConfusion (Option.some_inj.mp hc))]
        exact hstd
      | bool b =>
        rw [addExtraBody_not_obj debugMode body _
          (fun kvs hc => by rw [hv] at hc; exact Value.noConfusion (Option.some_inj.mp hc))]
        exact hstd
      | int n =>
        rw [addExtraBody_not_obj debugMode body _
          (fun kvs hc => by rw [hv] at hc; exact Value.noConfusion (Option.some_inj.mp hc))]
        exact hstd
      | str s =>
        rw [addExtraBody_not_obj debugMode body _
          (fun kvs hc => by rw [hv] at hc; exact Value.noConfusion (Option.some_inj.mp hc))]
        exact hstd
      | list xs =>
        rw [addExtraBody_not_obj debugMode body _
          (fun kvs hc => by rw [hv] at hc; exact Value.noConfusion (Option.some_inj.mp hc))]
        exact hstd
      | float f =>
        rw [addExtraBody_not_obj debugMode body _
          (fun kvs hc => by rw [hv] at hc; exact Value.noConfusion (Option.some_inj.mp hc))]
        exact hstd
  unfold buildRequestBody
  rw [dget_addPassthrough debugMode body _ p (Or.inr (Or.inl hfacts.2.2.2))]
  exact hext

/-- C5 witness: a flat null temperature is dropped by the allow-list step. -/
theorem c5_no_null_standard_param_witness :
    dget (buildRequestBody false "GPT-5.2" [] [("temperature", Value.null)]).1 "temperature" ≠
      some Value.null :=
  c5_no_null_standard_param false "GPT-5.2" [] [("temperature", Value.null)] "temperature"
    (by decide) (fun kvs v h _ => Option.noConfusion h)

theorem dget_none_iff (d : Dict) (k : String) :
    dget d k = none ↔ ∀ q ∈ d, q.1 ≠ k := by
  simp [dget, List.find?_eq_none]

/-- C6: for a multimedia model id, when the caller map leaves the streaming
flag unspecified or sets it to true (through any route: no top-level
"stream" key or a literal true, and no nested extra_body override of it),
the override of `pipe` forces the built request's stream field to false
and the call proceeds in buffered mode (`is_streaming` becomes falsy). -/
theorem c6_media_model_forces_buffered (debugMode : Bool) (model_id : String)
    (messages : List Value) (body : Dict)
    (hm : model_id ∈ mediaModels)
    (hs : dget body "stream" = none ∨ dget body "stream" = some (Value.bool true))
    (he : ∀ kvs, dget body "extra_body" = some (Value.obj kvs) → dget kvs "stream" = none) :
    dget (applyMediaOverride model_id
        (buildRequestBody debugMode model_id messages body).1).1 "stream" =
      some (Value.bool false) ∧
    (applyMediaOverride model_id
        (buildRequestBody debugMode model_id messages body).1).2 = Value.bool false ∧
    pyTruthy (applyMediaOverride model_id
        (buildRequestBody debugMode model_id messages body).1).2 = false := by
  have hbase : dget (baseBody model_id messages body) "stream" = some (Value.bool true) := by
    rw [dget_baseBody_stream]
    rcases hs with h | h <;> unfold dgetD <;> rw [h] <;> rfl
  have hstd : dget (addStandardParams body (baseBody model_id messages body)) "stream" =
      some (Value.bool true) := by
    unfold addStandardParams
    rw [dget_addStandardParams_of_not_mem body standardOptionalParams _ "stream" (by decide)]
    exact hbase
  have hext : dget (addExtraBody debugMode body
      (addStandardParams body (baseBody model_id messages body), [])).1 "stream" =
      some (Value.bool true) := by
    cases hv : dget body "extra_body" with
    | none =>
      rw [addExtraBody_not_obj debugMode body _
        (fun kvs hc => by rw [hv] at hc; exact Option.noConfusion hc)]
      exact hstd
    | some v =>
      cases v with
      | obj kvs =>
        rw [addExtraBody_obj debugMode body _ kvs hv]
        rw [dget_foldl_dset_of_not_mem kvs _ "stream" ((dget_none_iff kvs "stream").mp (he kvs hv))]
        exact hstd
      | null =>
        rw [addExtraBody_not_obj debugMode body _
          (fun kvs hc => by rw [hv] at hc; exact Value.noConfusion (Option.some_inj.mp hc))]
        exact hstd
      | bool b =>
        rw [addExtraBody_not_obj debugMode body _
          (fun kvs hc => by rw [hv] at hc; exact Value.noConfusion (Option.some_inj.mp hc))]
        exact hstd
      | int n =>
        rw [addExtraBody_not_obj debugMode body _
          (fun kvs hc => by rw [hv] at hc; exact Value.noConfusion (Option.some_inj.mp hc))]
        exact hstd
      | str s =>
        rw [addExtraBody_not_obj debugMode body _
          (fun kvs hc => by rw [hv] at hc; exact Value.noConfusion (Option.some_inj.mp hc))]
        exact hstd
      | list xs =>
        rw [addExtraBody_not_obj debugMode body _
          (fun kvs hc => by rw [hv] at hc; exact Value.noConfusion (Option.some_inj.mp hc))]
        exact hstd
      | float f =>
        rw [addExtraBody_not_obj debugMode body _
          (fun kvs hc => by rw [hv] at hc; exact Value.noConfusion (Option.some_inj.mp hc))]
        exact hstd
  have hrb : dget (buildRequestBody debugMode model_id messages body).1 "stream" =
      some (Value.bool true) := by
    unfold buildRequestBody
    rw [dget_addPassthrough debugMode body _ "stream" (Or.inr (Or.inl (by decide)))]
    exact hext
  unfold applyMediaOverride
  rw [show dgetD (buildRequestBody debugMode model_id messages body).1 "stream"
      (Value.bool true) = Value.bool true from by unfold dgetD; rw [hrb]; rfl]
  rw [if_pos ⟨hm, rfl⟩]
  exact ⟨dget_dset_self _ "stream" (Value.bool false), rfl, rfl⟩

/-- C6 witness: Sora-2 with the streaming flag left unspecified. -/
theorem c6_media_model_forces_buffered_witness :
    dget (applyMediaOverride "Sora-2"
        (buildRequestBody false "Sora-2" [] []).1).1 "stream" = some (Value.bool false) ∧
    (applyMediaOverride "Sora-2" (buildRequestBody false "Sora-2" [] []).1).2 =
      Value.bool false ∧
    pyTruthy (applyMediaOverride "Sora-2" (buildRequestBody false "Sora-2" [] []).1).2 = false :=
  c6_media_model_forces_buffered false "Sora-2" [] [] (by decide) (Or.inl rfl)
    (fun kvs h => Option.noConfusion h)

theorem makeRequestGo_all_5xx (mr : Nat) (l : List AttemptResult) (le : Option String) (c : Nat)
    (h : ∀ a ∈ l, ∃ r, a = AttemptResult.resp r ∧ 500 ≤ r.status) :
    ∃ m, makeRequestGo mr l le c =
      MakeResult.raised (RaisedExc.generic m) (c + l.length) := by
  induction l generalizing le c with
  | nil => exact ⟨exhaustMsg mr le, rfl⟩
  | cons a rest ih =>
    obtain ⟨r, rfl, hr⟩ := h a (List.mem_cons_self a rest)
    have hnot : ¬ r.status < 500 := Nat.not_lt.mpr hr
    obtain ⟨m, hm⟩ := ih (some (httpErr r.status)) (c + 1)
      (fun a ha => h a (List.mem_cons_of_mem _ ha))
    refine ⟨m, ?_⟩
    show (if r.status < 500 then MakeResult.success r (c + 1)
      else makeRequestGo mr rest (some (httpErr r.status)) (c + 1)) =
      MakeResult.raised (RaisedExc.generic m) (c + (rest.length + 1))
    rw [if_neg hnot, hm]
    congr 1
    omega

theorem makeRequestGo_all_503 (mr : Nat) (l : List AttemptResult) (le : Option String) (c : Nat)
    (h : ∀ a ∈ l, ∃ r, a = AttemptResult.resp r ∧ r.status = 503) (hl : l ≠ []) :
    makeRequestGo mr l le c =
      MakeResult.raised (RaisedExc.generic (exhaustMsg mr (some "HTTP 503"))) (c + l.length) := by
  induction l generalizing le c with
  | nil => exact absurd rfl hl
  | cons a rest ih =>
    obtain ⟨r, rfl, hr⟩ := h a (List.mem_cons_self a rest)
    have hnot : ¬ r.status < 500 := by omega
    show (if r.status < 500 then MakeResult.success r (c + 1)
      else makeRequestGo mr rest (some (httpErr r.status)) (c + 1)) =
      MakeResult.raised (RaisedExc.generic (exhaustMsg mr (some "HTTP 503"))) (c + (rest.length + 1))
    rw [if_neg hnot, hr]
    cases rest with
    | nil =>
      show MakeResult.raised (RaisedExc.generic (exhaustMsg mr (some (httpErr 503)))) (c + 1) = _
      rfl
    | cons b rest2 =>
      rw [ih (some (httpErr 503)) (c + 1) (fun a ha => h a (List.mem_cons_of_mem _ ha))
        (List.cons_ne_nil b rest2)]
      congr 1
      omega

/-- C2: a transport answering 5xx on every attempt makes exactly
MAX_RETRIES outbound calls and ends in the request-exhausted error (with
the exact last-observed detail in the all-503 case), while a first-attempt
status below 500 — such as a 400 — returns that response immediately after
exactly one outbound call. -/
theorem c2_retry_exhaustion_and_terminal (transport : Dict → Nat → AttemptResult)
    (body : Dict) (maxRetries : Nat) (hmr : 0 < maxRetries) :
    ((∀ i, i < maxRetries → ∃ r, transport body i = AttemptResult.resp r ∧ 500 ≤ r.status) →
      ∃ m, makeRequest transport body maxRetries =
        MakeResult.raised (RaisedExc.generic m) maxRetries) ∧
    ((∀ i, i < maxRetries → ∃ r, transport body i = AttemptResult.resp r ∧ r.status = 503) →
      makeRequest transport body maxRetries =
        MakeResult.raised (RaisedExc.generic (exhaustMsg maxRetries (some "HTTP 503")))
          maxRetries) ∧
    (∀ r, transport body 0 = AttemptResult.resp r → r.status = 400 →
      makeRequest transport body maxRetries = MakeResult.success r 1) := by
  refine ⟨?_, ?_, ?_⟩
  · intro h
    obtain ⟨m, hm⟩ := makeRequestGo_all_5xx maxRetries
      ((List.range maxRetries).map (transport body)) none 0
      (by
        intro a ha
        obtain ⟨i, hi, rfl⟩ := List.mem_map.mp ha
        exact h i (List.mem_range.mp hi))
    refine ⟨m, ?_⟩
    unfold makeRequest
    rw [hm]
    congr 1
    simp
  · intro h
    unfold makeRequest
    rw [makeRequestGo_all_503 maxRetries ((List.range maxRetries).map (transport body)) none 0
      (by
        intro a ha
        obtain ⟨i, hi, rfl⟩ := List.mem_map.mp ha
        exact h i (List.mem_range.mp hi))
      (by simp [List.range_eq_nil]; omega)]
    congr 1
    simp
  · intro r h0 h400
    obtain ⟨n, rfl⟩ : ∃ n, maxRetries = n + 1 :=
      ⟨maxRetries - 1, (Nat.succ_pred_eq_of_pos hmr).symm⟩
    unfold makeRequest
    rw [List.range_succ_eq_map, List.map_cons, h0]
    show (if r.status < 500 then MakeResult.success r (0 + 1)
      else makeRequestGo (n + 1) _ (some (httpErr r.status)) (0 + 1)) = MakeResult.success r 1
    rw [if_pos (by omega)]

/-- C2 witness: MAX_RETRIES = 3 with a constant-503 transport, and a
first-attempt 400 with another transport. -/
theorem c2_retry_exhaustion_and_terminal_witness :
    makeRequest (fun _ _ => AttemptResult.resp ⟨503, "", []⟩) [] 3 =
      MakeResult.raised
        (RaisedExc.generic "Request failed after 3 retries: HTTP 503") 3 ∧
    makeRequest (fun _ _ => AttemptResult.resp ⟨400, "", []⟩) [] 3 =
      MakeResult.success ⟨400, "", []⟩ 1 :=
  ⟨(c2_retry_exhaustion_and_terminal (fun _ _ => AttemptResult.resp ⟨503, "", []⟩) [] 3
      (by decide)).2.1 (fun i _ => ⟨⟨503, "", []⟩, rfl, rfl⟩),
   (c2_retry_exhaustion_and_terminal (fun _ _ => AttemptResult.resp ⟨400, "", []⟩) [] 3
      (by decide)).2.2 ⟨400, "", []⟩ rfl rfl⟩

/-- C3 (code bug): `requests.exceptions.Timeout` is a subclass of
`RequestException`, so the handler inside `_make_request` catches it and
retries; with MAX_RETRIES = 3, a transport timing out on every attempt
is retried to exhaustion (3 outbound calls, not 1), the exception that
escapes is the plain request-exhausted `Exception`, and `pipe` surfaces
it through the generic handler — not through the distinguished timeout
message that its dead `except Timeout` clause (line 348) would produce. -/
theorem c3_timeout_retried_not_distinguished :
    makeRequest (fun _ _ => AttemptResult.timeoutExc "Read timed out") [] 3 =
      MakeResult.raised
        (RaisedExc.generic "Request failed after 3 retries: Read timed out") 3 ∧
    pipe "key" false 3 300 (fun _ _ => AttemptResult.timeoutExc "Read timed out")
        "GPT-5.2" [] [] =
      (PipeOut.text "❌ **错误**: Request failed after 3 retries: Read timed out", 3) ∧
    pipeCatch (RaisedExc.timeout "Read timed out") 300 = "❌ **超时**: 请求超过 300 秒" ∧
    "❌ **错误**: Request failed after 3 retries: Read timed out" ≠
      "❌ **超时**: 请求超过 300 秒" ∧
    (3 : Nat) ≠ 1 :=
  ⟨rfl, rfl, rfl, by decide, by decide⟩

/-- C8: with an empty configured API key, `pipe` returns the user-facing
configuration-error message immediately and the transport performs zero
outbound calls. -/
theorem c8_missing_api_key_no_network (debugMode : Bool) (maxRetries timeoutSecs : Nat)
    (transport : Dict → Nat → AttemptResult) (model_id : String)
    (messages : List Value) (body : Dict) :
    pipe "" debugMode maxRetries timeoutSecs transport model_id messages body =
      (PipeOut.text "❌ **错误**: 未配置 Poe API Key", 0) := by
  unfold pipe
  rw [if_pos rfl]

/-- C7: the catalog refresh cannot raise (it is a total function here, with
every exception path of the try block modeled as caught), and every
failure path — empty API key, raised fetch exception, non-200 status,
unparsable body, extraction error, or an empty fetched list — leaves the
catalog equal to the static fallback list, unchanged in content and
order; the catalog differs from the fallback only after a successful,
non-empty fetch, in which case it equals the fetched entries. -/
theorem c7_catalog_refresh_fallback (apiKey : String) (fetch : FetchResult) :
    (apiKey = "" → refreshModels apiKey fetch = FALLBACK_MODELS) ∧
    (∀ m, fetch = FetchResult.exc m → refreshModels apiKey fetch = FALLBACK_MODELS) ∧
    (∀ s b, fetch = FetchResult.resp s b → s ≠ 200 →
      refreshModels apiKey fetch = FALLBACK_MODELS) ∧
    (fetch = FetchResult.resp 200 none → refreshModels apiKey fetch = FALLBACK_MODELS) ∧
    (∀ data, fetch = FetchResult.resp 200 (some data) → extractModels data = Except.ok [] →
      refreshModels apiKey fetch = FALLBACK_MODELS) ∧
    (∀ data e, fetch = FetchResult.resp 200 (some data) →
      extractModels data = Except.error e →
      refreshModels apiKey fetch = FALLBACK_MODELS) ∧
    (refreshModels apiKey fetch ≠ FALLBACK_MODELS →
      ∃ data models, fetch = FetchResult.resp 200 (some data) ∧
        extractModels data = Except.ok models ∧ models ≠ [] ∧
        refreshModels apiKey fetch = models) := by
  by_cases hk : apiKey = ""
  · subst hk
    exact ⟨fun _ => by simp [refreshModels], fun m _ => by simp [refreshModels],
      fun s b _ _ => by simp [refreshModels], fun _ => by simp [refreshModels],
      fun data _ _ => by simp [refreshModels], fun data e _ _ => by simp [refreshModels],
      fun hne => absurd (by simp [refreshModels]) hne⟩
  · refine ⟨fun h => absurd h hk, ?_, ?_, ?_, ?_, ?_, ?_⟩
    · rintro m rfl
      simp [refreshModels, refreshTry, hk]
    · rintro s b rfl hs
      simp [refreshModels, refreshTry, hk, hs]
    · rintro rfl
      simp [refreshModels, refreshTry, hk]
    · rintro data rfl hex
      simp [refreshModels, refreshTry, hk, hex]
    · rintro data e rfl hex
      simp [refreshModels, refreshTry, hk, hex]
    · intro hne
      cases fetch with
      | exc m => exact absurd (by simp [refreshModels, refreshTry, hk]) hne
      | resp s b =>
        by_cases hs : s = 200
        · subst hs
          cases b with
          | none => exact absurd (by simp [refreshModels, refreshTry, hk]) hne
          | some data =>
            cases hex : extractModels data with
            | error e => exact absurd (by simp [refreshModels, refreshTry, hk, hex]) hne
            | ok models =>
              cases models with
              | nil => exact absurd (by simp [refreshModels, refreshTry, hk, hex]) hne
              | cons x xs =>
                exact ⟨data, x :: xs, rfl, hex, List.cons_ne_nil x xs,
                  by simp [refreshModels, refreshTry, hk, hex]⟩
        · exact absurd (by simp [refreshModels, refreshTry, hk, hs]) hne

/-- C7 witness: a 401 response with an unreadable body leaves the fallback
catalog in place. -/
theorem c7_catalog_refresh_fallback_witness :
    refreshModels "key" (FetchResult.resp 401 none) = FALLBACK_MODELS :=
  (c7_catalog_refresh_fallback "key" (FetchResult.resp 401 none)).2.2.1 401 none rfl
    (by decide)

theorem extractLine_agrees (v : Value) (hg : goodPayload v = true) :
    extractLine v = Except.ok
      (match deltaContent v with
       | some s => if s = "" then none else some (Value.str s)
       | none => none) := by
  cases v with
  | null => simp [goodPayload, extractLine, pyGetD] at hg
  | bool b => simp [goodPayload, extractLine, pyGetD] at hg
  | int n => simp [goodPayload, extractLine, pyGetD] at hg
  | str s => simp [goodPayload, extractLine, pyGetD] at hg
  | list xs => simp [goodPayload, extractLine, pyGetD] at hg
  | float f => simp [goodPayload, extractLine, pyGetD] at hg
  | obj kvs =>
    cases hc : dget kvs "choices" with
    | none => simp [extractLine, deltaContent, pyGetD, hc, pyTruthy]
    | some ch =>
      cases ch with
      | null => simp [extractLine, deltaContent, pyGetD, hc, pyTruthy]
      | bool b =>
        cases b with
        | false => simp [extractLine, deltaContent, pyGetD, hc, pyTruthy]
        | true => simp [goodPayload, extractLine, pyGetD, hc, pyTruthy, index0] at hg
      | int n =>
        by_cases hn : n = 0
        · simp [extractLine, deltaContent, pyGetD, hc, pyTruthy, hn]
        · simp [goodPayload, extractLine, pyGetD, hc, pyTruthy, hn, index0] at hg
      | float f =>
        cases f with
        | finite m e =>
          by_cases hm : m = 0
          · simp [extractLine, deltaContent, pyGetD, hc, pyTruthy, hm]
          · simp [goodPayload, extractLine, pyGetD, hc, pyTruthy, hm, index0] at hg
        | nan => simp [goodPayload, extractLine, pyGetD, hc, pyTruthy, index0] at hg
        | inf b => simp [goodPayload, extractLine, pyGetD, hc, pyTruthy, index0] at hg
      | str s =>
        by_cases hs : s = ""
        · simp [extractLine, deltaContent, pyGetD, hc, pyTruthy, hs]
        · cases hsd : s.data with
          | nil => exact absurd (by cases s; simp at hsd; simp [hsd]) hs
          | cons c cr =>
            simp [goodPayload, extractLine, pyGetD, hc, pyTruthy, hs, index0, hsd] at hg
      | obj o =>
        cases o with
        | nil => simp [extractLine, deltaContent, pyGetD, hc, pyTruthy]
        | cons p ps => simp [goodPayload, extractLine, pyGetD, hc, pyTruthy, index0] at hg
      | list cs =>
        cases cs with
        | nil => simp [extractLine, deltaContent, pyGetD, hc, pyTruthy]
        | cons c0 cr =>
          cases c0 with
          | null => simp [goodPayload, extractLine, pyGetD, hc, pyTruthy, index0] at hg
          | bool b => simp [goodPayload, extractLine, pyGetD, hc, pyTruthy, index0] at hg
          | int n => simp [goodPayload, extractLine, pyGetD, hc, pyTruthy, index0] at hg
          | str s => simp [goodPayload, extractLine, pyGetD, hc, pyTruthy, index0] at hg
          | list xs => simp [goodPayload, extractLine, pyGetD, hc, pyTruthy, index0] at hg
          | float f => simp [goodPayload, extractLine, pyGetD, hc, pyTruthy, index0] at hg
          | obj cf =>
            cases hd : dget cf "delta" with
            | none =>
              simp [extractLine, deltaContent, pyGetD, hc, hd, pyTruthy, index0, dget_nil]
            | some dv =>
              cases dv with
              | null => simp [goodPayload, extractLine, pyGetD, hc, hd, pyTruthy, index0] at hg
              | bool b => simp [goodPayload, extractLine, pyGetD, hc, hd, pyTruthy, index0] at hg
              | int n => simp [goodPayload, extractLine, pyGetD, hc, hd, pyTruthy, index0] at hg
              | str s => simp [goodPayload, extractLine, pyGetD, hc, hd, pyTruthy, index0] at hg
              | list xs => simp [goodPayload, extractLine, pyGetD, hc, hd, pyTruthy, index0] at hg
              | float f => simp [goodPayload, extractLine, pyGetD, hc, hd, pyTruthy, index0] at hg
              | obj d =>
                cases hcc : dget d "content" with
                | none =>
                  simp [extractLine, deltaContent, pyGetD, hc, hd, hcc, pyTruthy, index0]
                | some cv =>
                  cases cv with
                  | str s2 =>
                    by_cases hs2 : s2 = "" <;>
                      simp [extractLine, deltaContent, pyGetD, hc, hd, hcc, pyTruthy,
                        index0, hs2]
                  | null =>
                    simp [extractLine, deltaContent, pyGetD, hc, hd, hcc, pyTruthy, index0]
                  | bool b =>
                    cases b with
                    | false =>
                      simp [extractLine, deltaContent, pyGetD, hc, hd, hcc, pyTruthy, index0]
                    | true =>
                      simp [goodPayload, extractLine, pyGetD, hc, hd, hcc, pyTruthy,
                        index0] at hg
                  | int n =>
                    by_cases hn : n = 0
                    · simp [extractLine, deltaContent, pyGetD, hc, hd, hcc, pyTruthy,
                        index0, hn]
                    · simp [goodPayload, extractLine, pyGetD, hc, hd, hcc, pyTruthy,
                        index0, hn] at hg
                  | float f =>
                    cases f with
                    | finite m e =>
                      by_cases hm : m = 0
                      · simp [extractLine, deltaContent, pyGetD, hc, hd, hcc, pyTruthy,
                          index0, hm]
                      · simp [goodPayload, extractLine, pyGetD, hc, hd, hcc, pyTruthy,
                          index0, hm] at hg
                    | nan =>
                      simp [goodPayload, extractLine, pyGetD, hc, hd, hcc, pyTruthy,
                        index0] at hg
                    | inf b =>
                      simp [goodPayload, extractLine, pyGetD, hc, hd, hcc, pyTruthy,
                        index0] at hg
                  | list xs =>
                    cases xs with
                    | nil =>
                      simp [extractLine, deltaContent, pyGetD, hc, hd, hcc, pyTruthy, index0]
                    | cons y ys =>
                      simp [goodPayload, extractLine, pyGetD, hc, hd, hcc, pyTruthy,
                        index0] at hg
                  | obj o2 =>
                    cases o2 with
                    | nil =>
                      simp [extractLine, deltaContent, pyGetD, hc, hd, hcc, pyTruthy, index0]
                    | cons y ys =>
                      simp [goodPayload, extractLine, pyGetD, hc, hd, hcc, pyTruthy,
                        index0] at hg

/-- C4 counterexample: a "data:" line whose payload parses as the JSON
number 5 is neither skipped nor fragment-free — `data.get` on the parsed
non-object raises `AttributeError` out of the generator (only
`json.JSONDecodeError` is caught), so iteration aborts instead of
completing with no emitted fragment. -/
theorem c4_counterexample_non_object_payload :
    streamResponse ["data: 5"] = ([], some "AttributeError") ∧
    (some "AttributeError" : Option String) ≠ none :=
  ⟨rfl, by decide⟩

/-- C4 amended: provided every parsed payload is well shaped (the
choices/delta/content extraction does not raise, and any emitted content
is a string), `_stream_response` emits exactly, and in order, the
non-empty delta content strings of the "data:"-prefixed lines preceding
the first "[DONE]" sentinel whose payload parses as JSON; unparsable
lines are silently skipped, empty or absent content emits nothing, and
iteration stops at the sentinel with no escaping exception. -/
theorem c4_stream_normalizer_amended (lines : List String)
    (h : ∀ l ∈ lines, goodLine l = true) :
    streamResponse lines = ((specFragments lines).map Value.str, none) := by
  induction lines with
  | nil => rfl
  | cons line rest ih =>
    have hline := h line (List.mem_cons_self _ _)
    have hrest := ih (fun l hl => h l (List.mem_cons_of_mem _ hl))
    by_cases hemp : line = ""
    · subst hemp
      show streamResponse rest = _
      rw [hrest]
      simp [specFragments, show isDone "" = false from rfl, show fragOf "" = none from rfl]
    · by_cases hpre : pyStartsWith line "data:" = true
      · by_cases hdone : dataPayload line = "[DONE]"
        · simp [streamResponse, hemp, hpre, hdone, specFragments, isDone]
        · cases hp : parseJson (dataPayload line) with
          | none =>
            simp [streamResponse, hemp, hpre, hdone, hp, specFragments, isDone,
              fragOf, hrest]
          | some v =>
            have hgp : goodPayload v = true := by
              simp [goodLine, hpre, hdone, hp] at hline
              exact hline
            have hagree := extractLine_agrees v hgp
            cases hdc : deltaContent v with
            | none =>
              simp only [hdc] at hagree
              simp [streamResponse, hemp, hpre, hdone, hp, hagree, specFragments,
                isDone, fragOf, hdc, hrest]
            | some s =>
              simp only [hdc] at hagree
              by_cases hs : s = ""
              · rw [if_pos hs] at hagree
                simp [streamResponse, hemp, hpre, hdone, hp, hagree, specFragments,
                  isDone, fragOf, hdc, hs, hrest]
              · rw [if_neg hs] at hagree
                simp [streamResponse, hemp, hpre, hdone, hp, hagree, specFragments,
                  isDone, fragOf, hdc, hs, hrest]
      · simp [streamResponse, hemp, hpre, specFragments, isDone, fragOf, hrest]

/-- C4 witness: the three-line example of the specification produces
exactly the fragment "Hi" and stops at the sentinel. -/
theorem c4_stream_normalizer_amended_witness :
    streamResponse
      ["data: \x7b\"choices\":[\x7b\"delta\":\x7b\"content\":\"Hi\"\x7d\x7d]\x7d",
       "data: [DONE]",
       "data: \x7b\"choices\":[\x7b\"delta\":\x7b\"content\":\"ignored\"\x7d\x7d]\x7d"] =
      ([Value.str "Hi"], none) := by
  have h := c4_stream_normalizer_amended
    ["data: \x7b\"choices\":[\x7b\"delta\":\x7b\"content\":\"Hi\"\x7d\x7d]\x7d",
     "data: [DONE]",
     "data: \x7b\"choices\":[\x7b\"delta\":\x7b\"content\":\"ignored\"\x7d\x7d]\x7d"]
    (by decide)
  rw [h]
  rfl
